import Mathlib

/-!
# deeplx_transform: the v2-to-v1 translation forwarder (`main.go`)

A shallow embedding of `main.go` and a verification of its specification.

Conventions of the embedding.

* Go strings are Lean `String`s, Go `int` values are `Int`s, slices are `List`s.
* A Go `error` is the `String` its `Error()` method prints; `nil` is `none`
  (or the `.ok` side of `Except`).
* `debugLog` and `log.Printf` calls only write to the log and are left out; the
  request id, which is only ever logged, is left out with them.
* The standard-library and network behaviour the program consumes (`yaml`
  decoding, `http.NewRequest`, `client.Do`, `io.ReadAll`, `json.Unmarshal`, the
  clock) is a parameter of the definitions: `Env` for `loadConfig`, `World` for
  the request handler.
* The goroutines of the fan-out run under an explicit interleaving: a schedule
  is the list of goroutine indices the Go scheduler picks, one atomic step each.
-/

namespace DeeplxTransform

/-! ## Data model (`main.go`, lines 19-89) -/

/-- Configuration of the forwarder, the Go struct `Config` flattened. -/
structure Config where
  port : String
  baseURL : String
  defaultSourceLang : String
  maxConcurrentRequests : Int
  requestTimeout : Int
  debugEnabled : Bool
  logRequestBody : Bool
  logResponseBody : Bool
  logHeaders : Bool
  deriving DecidableEq, Repr

/-- Request of the v2 interface, the Go struct `V2TranslateRequest`. -/
structure V2TranslateRequest where
  text : List String
  sourceLang : String
  targetLang : String
  deriving DecidableEq, Repr

/-- Request of the v1 upstream, the Go struct `V1TranslateRequest`. -/
structure V1TranslateRequest where
  text : String
  sourceLang : String
  targetLang : String
  deriving DecidableEq, Repr

/-- Reply of the v1 upstream, the Go struct `V1TranslateResponse`. -/
structure V1TranslateResponse where
  alternatives : List String
  code : Int
  data : String
  id : Int
  method : String
  sourceLang : String
  targetLang : String
  deriving DecidableEq, Repr

/-- One entry of the v2 response, the Go struct `Translation`. -/
structure Translation where
  detectedSourceLanguage : String
  text : String
  deriving DecidableEq, Repr

/-- Slot of the result store, the Go struct `translateResult`; `error = none` is Go's `nil`. -/
structure translateResult where
  index : Nat
  translation : Translation
  error : Option String
  deriving DecidableEq, Repr

/-- The zero value of `Config`, which the package variable `config` holds at start. -/
def Config.zero : Config :=
  { port := "", baseURL := "", defaultSourceLang := "", maxConcurrentRequests := 0,
    requestTimeout := 0, debugEnabled := false, logRequestBody := false,
    logResponseBody := false, logHeaders := false }

/-- The zero value of `Translation`. -/
def Translation.zero : Translation :=
  { detectedSourceLanguage := "", text := "" }

/-- The zero value of `translateResult`, which `make` fills the result store with. -/
def translateResult.zero : translateResult :=
  { index := 0, translation := Translation.zero, error := none }

/-! ## Standard-library string functions -/

/-- Go's `strings.HasPrefix`. -/
def hasPrefix (s pre : String) : Bool :=
  pre.data.isPrefixOf s.data

/-- Go's `strings.TrimPrefix`: `s` without the leading `pre`, or `s` itself. -/
def trimPrefix (s pre : String) : String :=
  if hasPrefix s pre then ⟨s.data.drop pre.data.length⟩ else s

/-! ## `loadConfig` (lines 109-148) -/

/-- What `loadConfig` reads from its surroundings: the value of `TARGET_BASE_URL`
(`os.Getenv` gives `""` when it is unset), the contents of `config.yaml` (`none` when
`os.Open` fails), and the YAML decoder, which updates a configuration in place or fails. -/
structure Env where
  targetBaseURL : String
  configFile : Option String
  decode : String → Config → Except String Config

/-- The defaulting block at the end of `loadConfig` (lines 133-145). -/
def setDefaults (config : Config) : Config :=
  let config := if config.port = "" then { config with port := "8080" } else config
  let config :=
    if config.defaultSourceLang = "" then { config with defaultSourceLang := "auto" } else config
  let config :=
    if config.maxConcurrentRequests ≤ 0 then { config with maxConcurrentRequests := 10 }
    else config
  if config.requestTimeout ≤ 0 then { config with requestTimeout := 30 } else config

/-- The function `loadConfig`, as a state transformer of the package variable `config`;
`.error` is its non-nil return. -/
def loadConfig (env : Env) (config : Config) : Except String Config :=
  if env.targetBaseURL ≠ "" then
    .ok (setDefaults { config with baseURL := env.targetBaseURL })
  else
    match env.configFile with
    | none =>
      .ok { config with
        port := "8080", baseURL := "http://localhost:3000", defaultSourceLang := "auto" }
    | some contents =>
      match env.decode contents config with
      | .error err => .error ("解析配置文件失败: " ++ err)
      | .ok decoded => .ok (setDefaults decoded)

/-! ## `extractToken` (lines 150-166) -/

/-- The function `extractToken`. -/
def extractToken (v2Auth : String) : String :=
  if hasPrefix v2Auth "DeepL-Auth-Key " then
    trimPrefix v2Auth "DeepL-Auth-Key "
  else if hasPrefix v2Auth "Bearer " then
    trimPrefix v2Auth "Bearer "
  else
    v2Auth

/-! ## Formatting verbs of `fmt` -/

/-- The loop of `fmtFrac` in Go's `time` package: `prec` low digits of `v` are written in
front of `buf`, trailing zeros omitted; the result is the buffer, `v / 10^prec` and
whether a digit was printed. -/
def fmtFracLoop : Nat → Nat → Bool → List Char → List Char × Nat × Bool
  | 0, v, print, buf => (buf, v, print)
  | prec + 1, v, print, buf =>
    let digit := v % 10
    let print := print || digit != 0
    let buf := if print then Nat.digitChar digit :: buf else buf
    fmtFracLoop prec (v / 10) print buf

/-- Go's `fmtFrac`: the fraction of `v / 10^prec` in front of `buf`, with its decimal point
when the fraction is not zero, and the integer part `v / 10^prec`. -/
def fmtFrac (buf : List Char) (v prec : Nat) : List Char × Nat :=
  match fmtFracLoop prec v false buf with
  | (buf, v, print) => (if print then '.' :: buf else buf, v)

/-- Go's `fmtInt`: the decimal digits of `v` in front of `buf`. -/
def fmtInt (buf : List Char) (v : Nat) : List Char :=
  Nat.toDigits 10 v ++ buf

/-- Go's `time.Duration.String`, which `%v` prints for a duration of `d` nanoseconds. -/
def durationString (d : Int) : String :=
  let u := d.natAbs
  let sign : List Char := if d < 0 then ['-'] else []
  if u < 1000000000 then
    if u = 0 then "0s"
    else if u < 1000 then
      let (buf, u) := fmtFrac ['n', 's'] u 0
      ⟨sign ++ fmtInt buf u⟩
    else if u < 1000000 then
      let (buf, u) := fmtFrac ['µ', 's'] u 3
      ⟨sign ++ fmtInt buf u⟩
    else
      let (buf, u) := fmtFrac ['m', 's'] u 6
      ⟨sign ++ fmtInt buf u⟩
  else
    let (buf, u) := fmtFrac ['s'] u 9
    let buf := fmtInt buf (u % 60)
    let u := u / 60
    if u > 0 then
      let buf := fmtInt ('m' :: buf) (u % 60)
      let u := u / 60
      if u > 0 then ⟨sign ++ fmtInt ('h' :: buf) u⟩ else ⟨sign ++ buf⟩
    else ⟨sign ++ buf⟩

/-! ## `translateSingleText` (lines 344-418) -/

/-- The HTTP request `translateSingleText` builds. The body is kept as the value that
`json.Marshal` encodes: marshalling a struct of three strings cannot fail, so the error
return of lines 361-363 is never taken. -/
structure UpstreamRequest where
  method : String
  url : String
  contentType : String
  body : V1TranslateRequest
  deriving DecidableEq, Repr

/-- How the exchange of lines 366-395 ends: `http.NewRequest` fails (nothing is sent),
`client.Do` fails (a transport error, a timeout included), `io.ReadAll` fails, or the
upstream's status code and body arrive. -/
inductive Exchange where
  | newRequestFailed (err : String)
  | doFailed (err : String)
  | readFailed (statusCode : Int) (err : String)
  | reply (statusCode : Int) (body : String)
  deriving DecidableEq, Repr

/-- The surroundings of the request handler: how the exchange of the call made for the
input text at a given index ends, the time `time.Since` measures around that call's
`client.Do` in nanoseconds, and `json.Unmarshal` into a `V1TranslateResponse`. -/
structure World where
  exchange : Nat → UpstreamRequest → Exchange
  elapsed : Nat → Int
  unmarshal : String → Except String V1TranslateResponse

/-- The request of lines 347-372: a POST of the v1 request to `targetURL`. -/
def buildRequest (text sourceLang targetLang targetURL : String) : UpstreamRequest :=
  let v1Req : V1TranslateRequest :=
    { text := text, sourceLang := sourceLang, targetLang := targetLang }
  { method := "POST", url := targetURL, contentType := "application/json", body := v1Req }

/-- The function `translateSingleText`. `call` is the index of the input text, which
selects the surroundings' answer; the first component of the result is the request handed
to `client.Do`, if the function got that far. -/
def translateSingleText (w : World) (call : Nat) (text sourceLang targetLang targetURL : String) :
    Option UpstreamRequest × Except String Translation :=
  let req := buildRequest text sourceLang targetLang targetURL
  match w.exchange call req with
  | .newRequestFailed err => (none, .error ("创建请求失败: " ++ err))
  | .doFailed err =>
    (some req, .error ("请求失败 (耗时: " ++ durationString (w.elapsed call) ++ "): " ++ err))
  | .readFailed _ err => (some req, .error ("读取响应失败: " ++ err))
  | .reply statusCode body =>
    if statusCode ≠ 200 then
      (some req, .error ("上游返回错误: " ++ toString statusCode ++ " - " ++ body))
    else
      match w.unmarshal body with
      | .error err => (some req, .error ("解析响应失败: " ++ err))
      | .ok v1Resp =>
        (some req, .ok { detectedSourceLanguage := v1Resp.sourceLang, text := v1Resp.data })

/-! ## The fan-out of `handleV2Translate` (lines 258-304) -/

/-- Where a goroutine of the fan-out stands: before its send on `semaphore`; holding a
slot, its call to `translateSingleText` in flight; its result written, the deferred
calls still to run; returned. -/
inductive Phase where
  | waiting
  | holding
  | written
  | done
  deriving DecidableEq, Repr

/-- State of the fan-out: the phase of each goroutine, the number of elements in the
buffer of the channel `semaphore`, the slice `results`, and the requests handed to
`client.Do` so far, each with the index of its goroutine. -/
structure FanOut where
  phases : List Phase
  semaphore : Nat
  results : List translateResult
  sent : List (Nat × UpstreamRequest)
  deriving DecidableEq, Repr

/-- The variables the goroutine closure captures, and the capacity of `semaphore`. -/
structure FanOutCtx where
  capacity : Nat
  texts : List String
  sourceLang : String
  targetLang : String
  targetURL : String
  deriving DecidableEq, Repr

/-- State after the loop of lines 265-301 has started one goroutine per text:
`results` holds zero values and the channel is empty. -/
def FanOut.init (n : Nat) : FanOut :=
  { phases := List.replicate n Phase.waiting, semaphore := 0,
    results := List.replicate n translateResult.zero, sent := [] }

/-- The slot a goroutine writes for the outcome of `translateSingleText` (lines 286-299). -/
def resultOf (index : Nat) (r : Except String Translation) : translateResult :=
  match r with
  | .error err => { index := index, translation := Translation.zero, error := some err }
  | .ok translation => { index := index, translation := translation, error := none }

/-- One step of goroutine `index` (lines 267-300), chosen by the scheduler.
* `waiting`: the send `semaphore <- struct{}{}` goes through when the buffer has room and
  blocks (the state is unchanged) when it is full. With capacity 0 the channel is
  unbuffered and a send needs a receiver; the only receives are the deferred ones, which
  run after the send, so the send blocks.
* `holding`: `translateSingleText` runs and `results[index]` is assigned.
* `written`: the deferred `<-semaphore` and `wg.Done()` run. -/
def goroutineStep (w : World) (ctx : FanOutCtx) (s : FanOut) (index : Nat) : FanOut :=
  match s.phases[index]? with
  | some .waiting =>
    if s.semaphore < ctx.capacity then
      { s with phases := s.phases.set index .holding, semaphore := s.semaphore + 1 }
    else s
  | some .holding =>
    match translateSingleText w index (ctx.texts.getD index "") ctx.sourceLang ctx.targetLang
        ctx.targetURL with
    | (req, r) =>
      { s with
        phases := s.phases.set index .written
        results := s.results.set index (resultOf index r)
        sent := s.sent ++ (req.toList.map fun q => (index, q)) }
  | some .written =>
    { s with phases := s.phases.set index .done, semaphore := s.semaphore - 1 }
  | _ => s

/-- The fan-out under a schedule: the scheduler picks the goroutines of `sched` in turn. -/
def runFanOut (w : World) (ctx : FanOutCtx) (sched : List Nat) : FanOut :=
  sched.foldl (goroutineStep w ctx) (FanOut.init ctx.texts.length)

/-- Whether `wg.Wait()` returns: every goroutine has called `wg.Done()`. -/
def FanOut.allDone (s : FanOut) : Bool :=
  s.phases.all fun p => p = Phase.done

/-- Number of goroutines whose call to `translateSingleText` is in flight. -/
def FanOut.inFlight (s : FanOut) : Nat :=
  s.phases.count Phase.holding

/-! ## `handleV2Translate` (lines 168-342) -/

/-- Payload of a response: a `gin.H` with an `error` and possibly `details`, or a
`V2TranslateResponse`. -/
inductive Body where
  | error (error : String) (details : Option String)
  | translations (translations : List Translation)
  deriving DecidableEq, Repr

/-- What the caller sees of one run of the handler: the status and payload of `c.JSON`,
or no response because `wg.Wait()` has not returned, or a panic. -/
inductive Reply where
  | responded (status : Nat) (body : Body)
  | blocked
  | panicked (msg : String)
  deriving DecidableEq, Repr

/-- One run of the handler: what the caller sees and the requests handed to `client.Do`,
each with the index of its input text. -/
structure Handled where
  reply : Reply
  sent : List (Nat × UpstreamRequest)
  deriving DecidableEq, Repr

/-- The loop of lines 210-218: the first index from `i` on whose text is empty. -/
def firstEmpty : List String → Nat → Option Nat
  | [], _ => none
  | text :: rest, i => if text = "" then some i else firstEmpty rest (i + 1)

/-- The source language sent upstream (lines 245-251). -/
def effectiveSourceLang (config : Config) (v2Req : V2TranslateRequest) : String :=
  if v2Req.sourceLang = "" then config.defaultSourceLang else v2Req.sourceLang

/-- The upstream URL (line 254). -/
def targetURL (config : Config) (token : String) : String :=
  config.baseURL ++ "/" ++ token ++ "/translate"

/-- The entry that stands for a failed translation (lines 319-322). -/
def errorTranslation (sourceLang err : String) : Translation :=
  Translation.mk sourceLang ("[TRANSLATION ERROR: " ++ err ++ "]")

/-- The loop of lines 314-326: `allSuccess` and the translations, in the order of `results`. -/
def assemble (sourceLang : String) (results : List translateResult) : Bool × List Translation :=
  results.foldl
    (fun acc result =>
      match result.error with
      | some err => (false, acc.2 ++ [errorTranslation sourceLang err])
      | none => (acc.1, acc.2 ++ [result.translation]))
    (true, [])

/-- What the goroutines of a request capture: the texts and target language of the request,
the source language and URL computed before the fan-out, and the capacity of the channel
made at line 261. -/
def fanOutCtx (config : Config) (v2Req : V2TranslateRequest) (sourceLang targetURL : String) :
    FanOutCtx :=
  { capacity := config.maxConcurrentRequests.toNat, texts := v2Req.text,
    sourceLang := sourceLang, targetLang := v2Req.targetLang, targetURL := targetURL }

/-- Lines 258-341: the channel is made, the goroutines run under `sched`, and once
`wg.Wait()` returns the response is assembled. A negative capacity makes `make` panic. -/
def fanOut (config : Config) (w : World) (sched : List Nat) (v2Req : V2TranslateRequest)
    (sourceLang targetURL : String) : Handled :=
  if config.maxConcurrentRequests < 0 then
    { reply := .panicked "makechan: size out of range", sent := [] }
  else
    let s := runFanOut w (fanOutCtx config v2Req sourceLang targetURL) sched
    if s.allDone then
      match assemble sourceLang s.results with
      | (allSuccess, translations) =>
        { reply := .responded (if !allSuccess then 206 else 200) (.translations translations),
          sent := s.sent }
    else
      { reply := .blocked, sent := s.sent }

/-- The function `handleV2Translate`. `bound` is what `c.ShouldBindJSON` makes of the
request body, `authorization` the value of `c.GetHeader("Authorization")`, and `sched` the
order in which the scheduler runs the goroutines of the fan-out. -/
def handleV2Translate (config : Config) (w : World) (sched : List Nat)
    (bound : Except String V2TranslateRequest) (authorization : String) : Handled :=
  match bound with
  | .error err => { reply := .responded 400 (.error "无效的请求格式" (some err)), sent := [] }
  | .ok v2Req =>
    if v2Req.text.length = 0 then
      { reply := .responded 400 (.error "text 参数是必需的" none), sent := [] }
    else
      match firstEmpty v2Req.text 0 with
      | some i =>
        { reply := .responded 400 (.error ("text[" ++ toString i ++ "] 不能为空") none),
          sent := [] }
      | none =>
        if v2Req.targetLang = "" then
          { reply := .responded 400 (.error "target_lang 参数是必需的" none), sent := [] }
        else
          let token := extractToken authorization
          if token = "" then
            { reply := .responded 401 (.error "缺少授权信息"
                (some "请在 Authorization 头中提供 'DeepL-Auth-Key [token]' 格式的授权信息")),
              sent := [] }
          else
            fanOut config w sched v2Req (effectiveSourceLang config v2Req)
              (targetURL config token)

/-! ## Notions used to state the properties of the fan-out -/

/-- The handler's fan-out context for a request and an `Authorization` header. -/
def handlerCtx (config : Config) (v2Req : V2TranslateRequest) (authorization : String) :
    FanOutCtx :=
  fanOutCtx config v2Req (effectiveSourceLang config v2Req)
    (targetURL config (extractToken authorization))

/-- The call goroutine `index` makes: `translateSingleText` on its own text. -/
def callOf (w : World) (ctx : FanOutCtx) (index : Nat) :
    Option UpstreamRequest × Except String Translation :=
  translateSingleText w index (ctx.texts.getD index "") ctx.sourceLang ctx.targetLang
    ctx.targetURL

/-- The request goroutine `index` builds. -/
def requestOf (ctx : FanOutCtx) (index : Nat) : UpstreamRequest :=
  buildRequest (ctx.texts.getD index "") ctx.sourceLang ctx.targetLang ctx.targetURL

/-- Content of `results[index]` when goroutine `index` is in phase `p`. -/
def slotAt (w : World) (ctx : FanOutCtx) (index : Nat) (p : Phase) : translateResult :=
  match p with
  | .waiting => translateResult.zero
  | .holding => translateResult.zero
  | _ => resultOf index (callOf w ctx index).2

/-- Requests goroutine `index` has handed to `client.Do` when it is in phase `p`. -/
def sentAt (w : World) (ctx : FanOutCtx) (index : Nat) (p : Option Phase) :
    List (Nat × UpstreamRequest) :=
  match p with
  | some .written => (callOf w ctx index).1.toList.map fun q => (index, q)
  | some .done => (callOf w ctx index).1.toList.map fun q => (index, q)
  | _ => []

/-- The entry of the response that stands for the outcome of one call. -/
def entryOf (sourceLang : String) (r : Except String Translation) : Translation :=
  match r with
  | .error err => errorTranslation sourceLang err
  | .ok translation => translation

/-- The translations of the response, read off the surroundings index by index. -/
def expectedTranslations (w : World) (ctx : FanOutCtx) : List Translation :=
  (List.range ctx.texts.length).map fun i => entryOf ctx.sourceLang (callOf w ctx i).2

/-- Whether every call of the batch succeeds. -/
def allSucceed (w : World) (ctx : FanOutCtx) : Bool :=
  (List.range ctx.texts.length).all fun i => (callOf w ctx i).2.toBool

/-- Steps the goroutines still have to take. -/
def FanOut.remaining (s : FanOut) : Nat :=
  3 * s.phases.count Phase.waiting + 2 * s.phases.count Phase.holding +
    s.phases.count Phase.written

/-- Invariant of the fan-out. -/
structure FanOut.Inv (w : World) (ctx : FanOutCtx) (s : FanOut) : Prop where
  length_phases : s.phases.length = ctx.texts.length
  slots : s.semaphore = s.phases.count Phase.holding + s.phases.count Phase.written
  room : s.semaphore ≤ ctx.capacity
  results : ∀ i : Nat, s.results[i]? = (s.phases[i]?).map (slotAt w ctx i)
  sent : ∀ i : Nat, s.sent.filter (fun e => e.1 = i) = sentAt w ctx i s.phases[i]?

/-! ## Sample surroundings -/

/-- A configuration as `loadConfig` leaves it when `TARGET_BASE_URL` is set to
`http://localhost:3000`, but for a capacity of two. -/
def sampleConfig : Config :=
  { port := "8080", baseURL := "http://localhost:3000", defaultSourceLang := "auto",
    maxConcurrentRequests := 2, requestTimeout := 30, debugEnabled := false,
    logRequestBody := false, logResponseBody := false, logHeaders := false }

/-- A batch of two texts without a source language. -/
def sampleRequest : V2TranslateRequest :=
  { text := ["hello", "world"], sourceLang := "", targetLang := "DE" }

/-- A stand-in for `json.Unmarshal`: the empty body does not parse, any other body is read
as a reply whose `data` is the body and whose `source_lang` is `EN`. -/
def sampleUnmarshal (body : String) : Except String V1TranslateResponse :=
  if body = "" then .error "unexpected end of JSON input"
  else
    .ok { alternatives := [], code := 200, data := body, id := 0, method := "Free",
          sourceLang := "EN", targetLang := "DE" }

/-- An upstream that answers every call with status 200 and the text in brackets. -/
def healthyWorld : World :=
  { exchange := fun _ req => .reply 200 ("<" ++ req.body.text ++ ">"),
    elapsed := fun _ => 1000000,
    unmarshal := sampleUnmarshal }

/-- An upstream whose call for the text at index 1 fails in transport, `client.Do` taking
`elapsed` nanoseconds, and that answers like `healthyWorld` otherwise. -/
def flakyWorld (elapsed : Int) : World :=
  { exchange := fun i req =>
      if i = 1 then .doFailed "connection refused" else .reply 200 ("<" ++ req.body.text ++ ">"),
    elapsed := fun _ => elapsed,
    unmarshal := sampleUnmarshal }

theorem hasPrefix_append (pre t : String) : hasPrefix (pre ++ t) pre = true := by
  simp [hasPrefix, String.data_append]

theorem trimPrefix_append (pre t : String) : trimPrefix (pre ++ t) pre = t := by
  simp [trimPrefix, hasPrefix_append, String.data_append]

theorem eq_append_of_hasPrefix {s pre : String} (h : hasPrefix s pre = true) :
    s = pre ++ trimPrefix s pre := by
  have hp : pre.data <+: s.data := by
    simpa [hasPrefix, List.isPrefixOf_iff_prefix] using h
  obtain ⟨t, ht⟩ := hp
  apply String.ext
  simp [trimPrefix, h, String.data_append, ← ht]

/-- Claim C6. `extractToken s` is `s` without the prefix `"DeepL-Auth-Key "` when `s` starts
with it, `s` without the prefix `"Bearer "` when `s` starts with that, and `s` itself when
it starts with neither; `"DeepL-Auth-Key abc123"` gives `"abc123"`, `"Bearer xyz"` gives
`"xyz"`, `"plainvalue"` gives `"plainvalue"` and `""` gives `""`. -/
theorem extractToken_characterisation (s : String) :
    (∀ t, s = "DeepL-Auth-Key " ++ t → extractToken s = t) ∧
    (∀ t, s = "Bearer " ++ t → extractToken s = t) ∧
    ((∀ t, s ≠ "DeepL-Auth-Key " ++ t) → (∀ t, s ≠ "Bearer " ++ t) → extractToken s = s) ∧
    extractToken "DeepL-Auth-Key abc123" = "abc123" ∧ extractToken "Bearer xyz" = "xyz" ∧
    extractToken "plainvalue" = "plainvalue" ∧ extractToken "" = "" := by
  refine ⟨?_, ?_, ?_, by decide, by decide, by decide, by decide⟩
  · rintro t rfl
    simp [extractToken, hasPrefix_append, trimPrefix_append]
  · rintro t rfl
    have h : hasPrefix ("Bearer " ++ t) "DeepL-Auth-Key " = false := by
      have hb : ("Bearer " : String).data = ['B', 'e', 'a', 'r', 'e', 'r', ' '] := rfl
      have hd : ("DeepL-Auth-Key " : String).data = 'D' :: ("eepL-Auth-Key " : String).data := rfl
      simp [hasPrefix, String.data_append, hb, hd, List.isPrefixOf]
    simp [extractToken, h, hasPrefix_append, trimPrefix_append]
  · intro h1 h2
    have a : hasPrefix s "DeepL-Auth-Key " = false := by
      by_contra hc
      exact h1 _ (eq_append_of_hasPrefix (by simpa using hc))
    have b : hasPrefix s "Bearer " = false := by
      by_contra hc
      exact h2 _ (eq_append_of_hasPrefix (by simpa using hc))
    simp [extractToken, a, b]

/-! ## Validation -/

theorem firstEmpty_eq_none {texts : List String} {k : Nat} :
    firstEmpty texts k = none ↔ "" ∉ texts := by
  induction texts generalizing k with
  | nil => simp [firstEmpty]
  | cons text rest ih =>
    by_cases h : text = ""
    · simp [firstEmpty, h]
    · have h' : ¬ "" = text := fun e => h e.symm
      simp [firstEmpty, h, h', ih]

theorem firstEmpty_eq_some {texts : List String} {k i : Nat} (h : firstEmpty texts k = some i) :
    ∃ j, i = k + j ∧ texts[j]? = some "" ∧ ∀ j', j' < j → texts[j']? ≠ some "" := by
  induction texts generalizing k with
  | nil => simp [firstEmpty] at h
  | cons text rest ih =>
    by_cases ht : text = ""
    · refine ⟨0, ?_, by simp [ht], by simp⟩
      simpa [firstEmpty, ht] using h.symm
    · simp only [firstEmpty, ht, if_false] at h
      obtain ⟨j, hj, hget, hmin⟩ := ih h
      refine ⟨j + 1, by omega, by simpa using hget, ?_⟩
      intro j' hj'
      cases j' with
      | zero => simpa using ht
      | succ n => simpa using hmin n (by omega)

theorem fanOut_reply_ne_401 (config : Config) (w : World) (sched : List Nat)
    (v2Req : V2TranslateRequest) (sourceLang url : String) (body : Body) :
    (fanOut config w sched v2Req sourceLang url).reply ≠ .responded 401 body := by
  unfold fanOut
  split
  · simp
  · dsimp only
    split
    · cases h : (assemble sourceLang (runFanOut w _ sched).results).1 <;> simp [h]
    · simp

/-- Claim C3. When the text list contains an empty string the handler answers 400 with the
message `text[i] 不能为空`, where `i` is the smallest index of an empty text, and hands no
request to the upstream, whatever the target language, the `Authorization` header, the
configuration and the surroundings are. (A list that contains an empty string is not
empty, so the check of line 201 passes.) -/
theorem handleV2Translate_names_first_empty_text (config : Config) (w : World) (sched : List Nat)
    (v2Req : V2TranslateRequest) (authorization : String) (h : "" ∈ v2Req.text) :
    ∃ i : Nat, v2Req.text[i]? = some "" ∧ (∀ j : Nat, j < i → v2Req.text[j]? ≠ some "") ∧
      handleV2Translate config w sched (.ok v2Req) authorization =
        { reply := .responded 400 (.error ("text[" ++ toString i ++ "] 不能为空") none),
          sent := [] } := by
  have hlen : v2Req.text.length ≠ 0 := by
    intro h0
    rw [List.length_eq_zero] at h0
    simp [h0] at h
  cases hf : firstEmpty v2Req.text 0 with
  | none => exact absurd h (firstEmpty_eq_none.mp hf)
  | some i =>
    obtain ⟨j, hj, hget, hmin⟩ := firstEmpty_eq_some hf
    have hij : i = j := by omega
    subst hij
    exact ⟨i, hget, hmin, by simp [handleV2Translate, hlen, hf]⟩

theorem handleV2Translate_names_first_empty_text_witness :
    handleV2Translate Config.zero ⟨fun _ _ => .reply 200 "", fun _ => 0, fun _ => .error ""⟩ []
        (.ok { text := ["hello", ""], sourceLang := "", targetLang := "" }) "" =
      { reply := .responded 400 (.error "text[1] 不能为空" none), sent := [] } := by
  obtain ⟨i, hget, hmin, heq⟩ :=
    handleV2Translate_names_first_empty_text Config.zero
      ⟨fun _ _ => .reply 200 "", fun _ => 0, fun _ => .error ""⟩ []
      { text := ["hello", ""], sourceLang := "", targetLang := "" } "" (by decide)
  have hi : i = 1 := by
    match i, hget with
    | 0, hget => simp at hget
    | 1, _ => rfl
    | n + 2, hget => simp at hget
  subst hi
  exact heq

/-- Claim C4. A request whose text list is empty, and a request whose target language is
empty, is answered with status 400 and an error message, and no request is handed to the
upstream, whatever the `Authorization` header is. -/
theorem handleV2Translate_rejects_missing_fields (config : Config) (w : World)
    (sched : List Nat) (v2Req : V2TranslateRequest) (authorization : String)
    (h : v2Req.text = [] ∨ v2Req.targetLang = "") :
    ∃ msg, handleV2Translate config w sched (.ok v2Req) authorization =
      { reply := .responded 400 (.error msg none), sent := [] } := by
  by_cases hlen : v2Req.text.length = 0
  · exact ⟨"text 参数是必需的", by simp [handleV2Translate, hlen]⟩
  · have htl : v2Req.targetLang = "" := by
      rcases h with h | h
      · simp [h] at hlen
      · exact h
    cases hf : firstEmpty v2Req.text 0 with
    | some i =>
      exact ⟨"text[" ++ toString i ++ "] 不能为空", by simp [handleV2Translate, hlen, hf]⟩
    | none => exact ⟨"target_lang 参数是必需的", by simp [handleV2Translate, hlen, hf, htl]⟩

/-! ## The fan-out -/

theorem count_set_phase (phases : List Phase) (i : Nat) (p q r : Phase)
    (h : phases[i]? = some p) :
    (phases.set i q).count r + (if p = r then 1 else 0) =
      phases.count r + (if q = r then 1 else 0) := by
  obtain ⟨hi, hp⟩ := List.getElem?_eq_some_iff.mp h
  have hpos : 0 < phases.count p := List.count_pos_iff.mpr (hp ▸ List.getElem_mem _)
  rw [List.count_set _ _ _ _ hi, hp]
  by_cases hpr : p = r
  · subst hpr
    by_cases hqr : q = p
    · simp [hqr]; omega
    · simp [hqr]; omega
  · by_cases hqr : q = r
    · simp [hpr, hqr]
    · simp [hpr, hqr]


theorem getElem?_set_phase {α : Type} (l : List α) (index i : Nat) (p q : α)
    (h : l[index]? = some p) :
    (l.set index q)[i]? = if index = i then some q else l[i]? := by
  obtain ⟨hi, _⟩ := List.getElem?_eq_some_iff.mp h
  rw [List.getElem?_set]
  simp [hi]

theorem filter_index_map (l : List UpstreamRequest) (index i : Nat) :
    (l.map fun q => (index, q)).filter (fun e => e.1 = i) =
      if index = i then l.map fun q => (index, q) else [] := by
  induction l with
  | nil => simp
  | cons q rest ih =>
    by_cases h : index = i <;> simp [List.filter_cons, h] at ih ⊢

theorem inv_init (w : World) (ctx : FanOutCtx) :
    FanOut.Inv w ctx (FanOut.init ctx.texts.length) where
  length_phases := by simp [FanOut.init]
  slots := by simp [FanOut.init, List.count_replicate]
  room := by simp [FanOut.init]
  results := by
    intro i
    simp only [FanOut.init, List.getElem?_replicate]
    split <;> simp [slotAt]
  sent := by
    intro i
    simp only [FanOut.init, List.getElem?_replicate]
    split <;> simp [sentAt]

theorem inv_step (w : World) (ctx : FanOutCtx) (s : FanOut) (index : Nat)
    (hs : FanOut.Inv w ctx s) : FanOut.Inv w ctx (goroutineStep w ctx s index) := by
  unfold goroutineStep
  split
  · -- waiting
    rename_i hp
    split
    · rename_i hroom
      have hh := count_set_phase s.phases index .waiting .holding .holding hp
      have hw := count_set_phase s.phases index .waiting .holding .written hp
      simp at hh hw
      refine ⟨by simpa using hs.length_phases, ?_, ?_, ?_, ?_⟩
      · have := hs.slots
        simp only [hh, hw]; omega
      · simp only; omega
      · intro i
        simp only [getElem?_set_phase _ _ _ _ _ hp]
        split
        · rename_i hi
          subst hi
          simp [hs.results index, hp, slotAt]
        · exact hs.results i
      · intro i
        simp only [getElem?_set_phase _ _ _ _ _ hp]
        split
        · rename_i hi
          subst hi
          simp [hs.sent index, hp, sentAt]
        · exact hs.sent i
    · exact hs
  · -- holding
    rename_i hp
    have hh := count_set_phase s.phases index .holding .written .holding hp
    have hw := count_set_phase s.phases index .holding .written .written hp
    simp at hh hw
    have hres : s.results[index]? = some translateResult.zero := by
      simp [hs.results index, hp, slotAt]
    refine ⟨by simpa using hs.length_phases, ?_, ?_, ?_, ?_⟩
    · have := hs.slots
      simp only [hw]; omega
    · exact hs.room
    · intro i
      simp only [getElem?_set_phase _ _ _ _ _ hp, getElem?_set_phase _ _ _ _ _ hres]
      split
      · rename_i hi
        subst hi
        simp [slotAt, callOf]
      · exact hs.results i
    · intro i
      simp only [getElem?_set_phase _ _ _ _ _ hp, List.filter_append, hs.sent i]
      split
      · rename_i hi
        subst hi
        simp [hp, sentAt, callOf, filter_index_map]
      · rename_i hi
        simp [filter_index_map, hi]
  · -- written
    rename_i hp
    have hh := count_set_phase s.phases index .written .done .holding hp
    have hw := count_set_phase s.phases index .written .done .written hp
    simp at hh hw
    refine ⟨by simpa using hs.length_phases, ?_, ?_, ?_, ?_⟩
    · have := hs.slots
      simp only [hh]; omega
    · have := hs.room
      simp only; omega
    · intro i
      simp only [getElem?_set_phase _ _ _ _ _ hp]
      split
      · rename_i hi
        subst hi
        simp [hs.results index, hp, slotAt]
      · exact hs.results i
    · intro i
      simp only [getElem?_set_phase _ _ _ _ _ hp]
      split
      · rename_i hi
        subst hi
        simp [hs.sent index, hp, sentAt]
      · exact hs.sent i
  · exact hs

theorem inv_foldl (w : World) (ctx : FanOutCtx) (sched : List Nat) (s : FanOut)
    (hs : FanOut.Inv w ctx s) : FanOut.Inv w ctx (sched.foldl (goroutineStep w ctx) s) := by
  induction sched generalizing s with
  | nil => exact hs
  | cons i rest ih => exact ih _ (inv_step w ctx s i hs)

theorem inv_runFanOut (w : World) (ctx : FanOutCtx) (sched : List Nat) :
    FanOut.Inv w ctx (runFanOut w ctx sched) :=
  inv_foldl w ctx sched _ (inv_init w ctx)

theorem runFanOut_append (w : World) (ctx : FanOutCtx) (sched more : List Nat) :
    runFanOut w ctx (sched ++ more) =
      more.foldl (goroutineStep w ctx) (runFanOut w ctx sched) := by
  simp [runFanOut, List.foldl_append]

theorem allDone_iff_remaining (s : FanOut) : s.allDone = true ↔ s.remaining = 0 := by
  unfold FanOut.allDone FanOut.remaining
  constructor
  · intro h
    have h' : ∀ p ∈ s.phases, p = Phase.done := by simpa using h
    have hw : s.phases.count Phase.waiting = 0 :=
      List.count_eq_zero.mpr fun hm => by cases h' _ hm
    have hh : s.phases.count Phase.holding = 0 :=
      List.count_eq_zero.mpr fun hm => by cases h' _ hm
    have hr : s.phases.count Phase.written = 0 :=
      List.count_eq_zero.mpr fun hm => by cases h' _ hm
    omega
  · intro h
    have hw : s.phases.count Phase.waiting = 0 := by omega
    have hh : s.phases.count Phase.holding = 0 := by omega
    have hr : s.phases.count Phase.written = 0 := by omega
    rw [List.count_eq_zero] at hw hh hr
    simp only [List.all_eq_true, decide_eq_true_eq]
    intro p hp
    cases p with
    | waiting => exact absurd hp hw
    | holding => exact absurd hp hh
    | written => exact absurd hp hr
    | done => rfl

theorem exists_phase_of_count_pos (phases : List Phase) (p : Phase)
    (h : 0 < phases.count p) : ∃ i : Nat, phases[i]? = some p := by
  have hm : p ∈ phases := List.count_pos_iff.mp h
  obtain ⟨i, hi, hp⟩ := List.getElem_of_mem hm
  exact ⟨i, by simp [List.getElem?_eq_getElem hi, hp]⟩

/-- Some goroutine can take a step while the channel has a positive capacity and not all
goroutines have returned. -/
theorem exists_progress (w : World) (ctx : FanOutCtx) (s : FanOut) (hs : FanOut.Inv w ctx s)
    (hcap : 0 < ctx.capacity) (hrem : 0 < s.remaining) :
    ∃ i : Nat, (goroutineStep w ctx s i).remaining + 1 = s.remaining := by
  by_cases hh : 0 < s.phases.count Phase.holding
  · obtain ⟨i, hp⟩ := exists_phase_of_count_pos _ _ hh
    refine ⟨i, ?_⟩
    have c1 := count_set_phase s.phases i .holding .written .waiting hp
    have c2 := count_set_phase s.phases i .holding .written .holding hp
    have c3 := count_set_phase s.phases i .holding .written .written hp
    simp at c1 c2 c3
    simp only [goroutineStep, hp, FanOut.remaining]
    omega
  · by_cases hr : 0 < s.phases.count Phase.written
    · obtain ⟨i, hp⟩ := exists_phase_of_count_pos _ _ hr
      refine ⟨i, ?_⟩
      have c1 := count_set_phase s.phases i .written .done .waiting hp
      have c2 := count_set_phase s.phases i .written .done .holding hp
      have c3 := count_set_phase s.phases i .written .done .written hp
      simp at c1 c2 c3
      simp only [goroutineStep, hp, FanOut.remaining]
      omega
    · have hw : 0 < s.phases.count Phase.waiting := by
        unfold FanOut.remaining at hrem
        omega
      obtain ⟨i, hp⟩ := exists_phase_of_count_pos _ _ hw
      refine ⟨i, ?_⟩
      have c1 := count_set_phase s.phases i .waiting .holding .waiting hp
      have c2 := count_set_phase s.phases i .waiting .holding .holding hp
      have c3 := count_set_phase s.phases i .waiting .holding .written hp
      simp at c1 c2 c3
      have hsem : s.semaphore < ctx.capacity := by
        have := hs.slots
        omega
      simp only [goroutineStep, hp, hsem, if_true, FanOut.remaining]
      omega

theorem exists_completion (w : World) (ctx : FanOutCtx) (hcap : 0 < ctx.capacity) (n : Nat) :
    ∀ s : FanOut, FanOut.Inv w ctx s → s.remaining ≤ n →
      ∃ more : List Nat, (more.foldl (goroutineStep w ctx) s).allDone = true := by
  induction n with
  | zero =>
    intro s _ hn
    exact ⟨[], (allDone_iff_remaining s).mpr (by simpa using hn)⟩
  | succ n ih =>
    intro s hs hn
    by_cases h0 : s.remaining = 0
    · exact ⟨[], (allDone_iff_remaining s).mpr h0⟩
    · obtain ⟨i, hi⟩ := exists_progress w ctx s hs hcap (by omega)
      obtain ⟨more, hmore⟩ := ih (goroutineStep w ctx s i) (inv_step w ctx s i hs) (by omega)
      exact ⟨i :: more, by simpa using hmore⟩

/-- With a positive capacity every run of the fan-out can be continued until `wg.Wait()`
returns. -/
theorem runFanOut_completes (w : World) (ctx : FanOutCtx) (hcap : 0 < ctx.capacity)
    (sched : List Nat) : ∃ more : List Nat, (runFanOut w ctx (sched ++ more)).allDone = true := by
  obtain ⟨more, h⟩ :=
    exists_completion w ctx hcap _ (runFanOut w ctx sched) (inv_runFanOut w ctx sched) (le_refl _)
  exact ⟨more, by rw [runFanOut_append]; exact h⟩

/-- With capacity 0 no goroutine ever gets past its send. -/
theorem runFanOut_capacity_zero (w : World) (ctx : FanOutCtx) (hcap : ctx.capacity = 0)
    (sched : List Nat) : runFanOut w ctx sched = FanOut.init ctx.texts.length := by
  unfold runFanOut
  induction sched with
  | nil => rfl
  | cons i rest ih =>
    have hstep : goroutineStep w ctx (FanOut.init ctx.texts.length) i =
        FanOut.init ctx.texts.length := by
      unfold goroutineStep
      simp only [FanOut.init, List.getElem?_replicate, hcap]
      split <;> simp_all
    simp only [List.foldl_cons, hstep]
    exact ih

/-- A step of a goroutine either leaves the state alone (the goroutine is blocked on the
channel, has returned, or does not exist) or takes one of the goroutine's three steps. -/
theorem goroutineStep_remaining (w : World) (ctx : FanOutCtx) (s : FanOut) (i : Nat) :
    goroutineStep w ctx s i = s ∨ (goroutineStep w ctx s i).remaining + 1 = s.remaining := by
  unfold goroutineStep
  split
  · rename_i hp
    split
    · right
      have c1 := count_set_phase s.phases i .waiting .holding .waiting hp
      have c2 := count_set_phase s.phases i .waiting .holding .holding hp
      have c3 := count_set_phase s.phases i .waiting .holding .written hp
      simp at c1 c2 c3
      simp only [FanOut.remaining]
      omega
    · exact Or.inl rfl
  · rename_i hp
    right
    have c1 := count_set_phase s.phases i .holding .written .waiting hp
    have c2 := count_set_phase s.phases i .holding .written .holding hp
    have c3 := count_set_phase s.phases i .holding .written .written hp
    simp at c1 c2 c3
    simp only [FanOut.remaining]
    omega
  · rename_i hp
    right
    have c1 := count_set_phase s.phases i .written .done .waiting hp
    have c2 := count_set_phase s.phases i .written .done .holding hp
    have c3 := count_set_phase s.phases i .written .done .written hp
    simp at c1 c2 c3
    simp only [FanOut.remaining]
    omega
  · exact Or.inl rfl

/-- The fan-out of `n` goroutines starts with `3 * n` steps to take. -/
theorem remaining_init (n : Nat) : (FanOut.init n).remaining = 3 * n := by
  simp [FanOut.remaining, FanOut.init, List.count_replicate]

theorem phases_of_allDone (w : World) (ctx : FanOutCtx) (s : FanOut) (hs : FanOut.Inv w ctx s)
    (hd : s.allDone = true) (i : Nat) :
    s.phases[i]? = if i < ctx.texts.length then some Phase.done else none := by
  have h' : ∀ p ∈ s.phases, p = Phase.done := by simpa [FanOut.allDone] using hd
  split
  · rename_i hi
    have hi' : i < s.phases.length := by rw [hs.length_phases]; exact hi
    rw [List.getElem?_eq_getElem hi', h' _ (List.getElem_mem hi')]
  · rename_i hi
    exact List.getElem?_eq_none (by rw [hs.length_phases]; omega)

/-- Once every goroutine has returned, `results` holds the outcome of call `i` at index `i`,
whatever the schedule was. -/
theorem results_of_allDone (w : World) (ctx : FanOutCtx) (s : FanOut) (hs : FanOut.Inv w ctx s)
    (hd : s.allDone = true) :
    s.results = (List.range ctx.texts.length).map fun i => resultOf i (callOf w ctx i).2 := by
  apply List.ext_getElem?
  intro i
  rw [hs.results i, phases_of_allDone w ctx s hs hd i]
  by_cases hi : i < ctx.texts.length
  · simp [hi, slotAt, List.getElem?_range hi]
  · have hnone : (List.range ctx.texts.length)[i]? = none :=
      List.getElem?_eq_none (by simp; omega)
    simp [hi, hnone]

theorem assemble_foldl (sourceLang : String) (results : List translateResult)
    (acc : Bool × List Translation) :
    results.foldl
        (fun acc result =>
          match result.error with
          | some err => (false, acc.2 ++ [errorTranslation sourceLang err])
          | none => (acc.1, acc.2 ++ [result.translation])) acc =
      (acc.1 && results.all (fun r => r.error.isNone),
        acc.2 ++ results.map fun r =>
          match r.error with
          | some err => errorTranslation sourceLang err
          | none => r.translation) := by
  induction results generalizing acc with
  | nil => simp
  | cons r rest ih =>
    rw [List.foldl_cons, ih]
    cases h : r.error <;> simp [h]

theorem assemble_eq (sourceLang : String) (results : List translateResult) :
    assemble sourceLang results =
      (results.all (fun r => r.error.isNone),
        results.map fun r =>
          match r.error with
          | some err => errorTranslation sourceLang err
          | none => r.translation) := by
  unfold assemble
  rw [assemble_foldl]
  simp

theorem all_map_index {α β : Type} (f : α → β) (p : β → Bool) (l : List α) :
    (l.map f).all p = l.all fun a => p (f a) := by
  induction l with
  | nil => rfl
  | cons a rest ih => simp [ih]

theorem isNone_error_resultOf (i : Nat) (r : Except String Translation) :
    (resultOf i r).error.isNone = r.toBool := by
  cases r <;> rfl

theorem entry_resultOf (sourceLang : String) (i : Nat) (r : Except String Translation) :
    (match (resultOf i r).error with
      | some err => errorTranslation sourceLang err
      | none => (resultOf i r).translation) = entryOf sourceLang r := by
  cases r <;> rfl

theorem assemble_results (w : World) (ctx : FanOutCtx) (sourceLang : String)
    (hsl : ctx.sourceLang = sourceLang) :
    assemble sourceLang
        ((List.range ctx.texts.length).map fun i => resultOf i (callOf w ctx i).2) =
      (allSucceed w ctx, expectedTranslations w ctx) := by
  subst hsl
  rw [assemble_eq]
  unfold allSucceed expectedTranslations
  refine Prod.ext ?_ ?_
  · dsimp only
    rw [all_map_index]
    simp only [isNone_error_resultOf]
  · simp [List.map_map, Function.comp_def, entry_resultOf]

/-- The reply of the fan-out stage, by cases on the capacity and on whether the goroutines
have all returned under the schedule. -/
theorem fanOut_eq (config : Config) (w : World) (sched : List Nat) (v2Req : V2TranslateRequest)
    (sourceLang url : String) :
    fanOut config w sched v2Req sourceLang url =
      if config.maxConcurrentRequests < 0 then
        { reply := .panicked "makechan: size out of range", sent := [] }
      else if (runFanOut w (fanOutCtx config v2Req sourceLang url) sched).allDone then
        { reply := .responded
            (if allSucceed w (fanOutCtx config v2Req sourceLang url) then 200 else 206)
            (.translations (expectedTranslations w (fanOutCtx config v2Req sourceLang url))),
          sent := (runFanOut w (fanOutCtx config v2Req sourceLang url) sched).sent }
      else
        { reply := .blocked,
          sent := (runFanOut w (fanOutCtx config v2Req sourceLang url) sched).sent } := by
  unfold fanOut
  split
  · rfl
  · dsimp only
    split
    · rename_i hd
      rw [results_of_allDone w _ _ (inv_runFanOut w _ sched) hd,
        assemble_results w _ sourceLang rfl]
      cases allSucceed w (fanOutCtx config v2Req sourceLang url) <;> simp
    · rfl

theorem handleV2Translate_eq_fanOut (config : Config) (w : World) (sched : List Nat)
    (v2Req : V2TranslateRequest) (authorization : String) (hN : v2Req.text ≠ [])
    (hne : "" ∉ v2Req.text) (htl : v2Req.targetLang ≠ "")
    (htok : extractToken authorization ≠ "") :
    handleV2Translate config w sched (.ok v2Req) authorization =
      fanOut config w sched v2Req (effectiveSourceLang config v2Req)
        (targetURL config (extractToken authorization)) := by
  have hlen : v2Req.text.length ≠ 0 := by
    simpa [List.length_eq_zero] using hN
  simp [handleV2Translate, hlen, firstEmpty_eq_none.mpr hne, htl, htok]

/-- The error `translateSingleText` returns for each way an exchange can fail: the request
cannot be built, the transport fails, the body cannot be read, the status is not 200, the
body does not parse. -/
theorem translateSingleText_error (w : World) (call : Nat)
    (text sourceLang targetLang url : String) :
    (∀ err : String,
      w.exchange call (buildRequest text sourceLang targetLang url) = .newRequestFailed err →
      (translateSingleText w call text sourceLang targetLang url).2 =
        .error ("创建请求失败: " ++ err)) ∧
    (∀ err : String,
      w.exchange call (buildRequest text sourceLang targetLang url) = .doFailed err →
      (translateSingleText w call text sourceLang targetLang url).2 =
        .error ("请求失败 (耗时: " ++ durationString (w.elapsed call) ++ "): " ++ err)) ∧
    (∀ (statusCode : Int) (err : String),
      w.exchange call (buildRequest text sourceLang targetLang url) =
        .readFailed statusCode err →
      (translateSingleText w call text sourceLang targetLang url).2 =
        .error ("读取响应失败: " ++ err)) ∧
    (∀ (statusCode : Int) (body : String),
      w.exchange call (buildRequest text sourceLang targetLang url) =
        .reply statusCode body →
      statusCode ≠ 200 →
      (translateSingleText w call text sourceLang targetLang url).2 =
        .error ("上游返回错误: " ++ toString statusCode ++ " - " ++ body)) ∧
    (∀ body err : String,
      w.exchange call (buildRequest text sourceLang targetLang url) = .reply 200 body →
      w.unmarshal body = .error err →
      (translateSingleText w call text sourceLang targetLang url).2 =
        .error ("解析响应失败: " ++ err)) := by
  refine ⟨?_, ?_, ?_, ?_, ?_⟩
  · intro err h
    simp only [translateSingleText, h]
  · intro err h
    simp only [translateSingleText, h]
  · intro statusCode err h
    simp only [translateSingleText, h]
  · intro statusCode body h hne
    simp only [translateSingleText, h, hne, ne_eq, not_false_eq_true, if_true]
  · intro body err h hu
    simp only [translateSingleText, h, hu]
    simp

theorem callOf_of_reply_ok (w : World) (ctx : FanOutCtx) (i : Nat) (body : String)
    (v1Resp : V1TranslateResponse) (hx : w.exchange i (requestOf ctx i) = .reply 200 body)
    (hu : w.unmarshal body = .ok v1Resp) :
    callOf w ctx i =
      (some (requestOf ctx i),
        .ok { detectedSourceLanguage := v1Resp.sourceLang, text := v1Resp.data }) := by
  simp only [requestOf] at hx ⊢
  simp only [callOf, translateSingleText, hx, hu]
  simp

/-- What the handler can reply on a request that passes validation and authorization, and
that it does reply when the channel has a positive capacity. -/
theorem handleV2Translate_fanOut_reply (config : Config) (w : World)
    (v2Req : V2TranslateRequest) (authorization : String) (hN : v2Req.text ≠ [])
    (hne : "" ∉ v2Req.text) (htl : v2Req.targetLang ≠ "")
    (htok : extractToken authorization ≠ "") (sched : List Nat) :
    (0 < (handlerCtx config v2Req authorization).capacity →
      ∃ more : List Nat,
        (handleV2Translate config w (sched ++ more) (.ok v2Req) authorization).reply =
          .responded (if allSucceed w (handlerCtx config v2Req authorization) then 200 else 206)
            (.translations (expectedTranslations w (handlerCtx config v2Req authorization)))) ∧
    ∀ (status : Nat) (body : Body),
      (handleV2Translate config w sched (.ok v2Req) authorization).reply =
          .responded status body →
        status = (if allSucceed w (handlerCtx config v2Req authorization) then 200 else 206) ∧
        body = .translations (expectedTranslations w (handlerCtx config v2Req authorization)) := by
  constructor
  · intro hcap
    obtain ⟨more, hmore⟩ := runFanOut_completes w _ hcap sched
    refine ⟨more, ?_⟩
    have hK : ¬ config.maxConcurrentRequests < 0 := by
      intro hneg
      simp [handlerCtx, fanOutCtx, Int.toNat_of_nonpos (le_of_lt hneg)] at hcap
    rw [handleV2Translate_eq_fanOut config w _ v2Req authorization hN hne htl htok, fanOut_eq]
    unfold handlerCtx at hmore
    simp [hK, hmore, handlerCtx]
  · intro status body h
    rw [handleV2Translate_eq_fanOut config w _ v2Req authorization hN hne htl htok, fanOut_eq]
      at h
    split at h
    · simp at h
    · split at h
      · simp only [Reply.responded.injEq] at h
        exact ⟨h.1.symm, h.2.symm⟩
      · simp at h

/-- With a positive `MaxConcurrentRequests`: for a batch of `N ≥ 1` non-empty texts with a
non-empty target language and a non-empty extracted token, if the upstream answers the call
for every index `i` with status 200 and a body `body i` that parses to `v1Resp i`, then
under every schedule the goroutines can run on until the handler replies, the reply is
status 200 with the `N` translations whose `i`-th entry has the `source_lang` and `data`
of `v1Resp i`, and no schedule leads to any other reply. -/
theorem handleV2Translate_all_calls_succeed_of_capacity_pos (config : Config) (w : World)
    (v2Req : V2TranslateRequest) (authorization : String) (body : Nat → String)
    (v1Resp : Nat → V1TranslateResponse) (hK : 0 < config.maxConcurrentRequests)
    (hN : v2Req.text ≠ []) (hne : "" ∉ v2Req.text) (htl : v2Req.targetLang ≠ "")
    (htok : extractToken authorization ≠ "")
    (hcalls : ∀ i : Nat, i < v2Req.text.length →
      w.exchange i (requestOf (handlerCtx config v2Req authorization) i) =
        .reply 200 (body i) ∧
      w.unmarshal (body i) = .ok (v1Resp i)) :
    ∀ sched' : List Nat,
      (∃ more : List Nat,
        (handleV2Translate config w (sched' ++ more) (.ok v2Req) authorization).reply =
          .responded 200 (.translations ((List.range v2Req.text.length).map fun i =>
            { detectedSourceLanguage := (v1Resp i).sourceLang, text := (v1Resp i).data }))) ∧
      ∀ (status : Nat) (body' : Body),
        (handleV2Translate config w sched' (.ok v2Req) authorization).reply =
            .responded status body' →
          status = 200 ∧
          body' = .translations ((List.range v2Req.text.length).map fun i =>
            { detectedSourceLanguage := (v1Resp i).sourceLang, text := (v1Resp i).data }) := by
  have hcap : 0 < (handlerCtx config v2Req authorization).capacity := by
    show 0 < config.maxConcurrentRequests.toNat
    omega
  have hcall : ∀ i : Nat, i < v2Req.text.length →
      callOf w (handlerCtx config v2Req authorization) i =
        (some (requestOf (handlerCtx config v2Req authorization) i),
          .ok { detectedSourceLanguage := (v1Resp i).sourceLang, text := (v1Resp i).data }) :=
    fun i hi => callOf_of_reply_ok w _ i _ _ (hcalls i hi).1 (hcalls i hi).2
  have hlen : (handlerCtx config v2Req authorization).texts.length = v2Req.text.length := rfl
  have hall : allSucceed w (handlerCtx config v2Req authorization) = true := by
    simp only [allSucceed, List.all_eq_true, List.mem_range, hlen]
    intro i hi
    rw [hcall i hi]
    rfl
  have hexp : expectedTranslations w (handlerCtx config v2Req authorization) =
      (List.range v2Req.text.length).map fun i =>
        { detectedSourceLanguage := (v1Resp i).sourceLang, text := (v1Resp i).data } := by
    simp only [expectedTranslations, hlen]
    apply List.map_congr_left
    intro i hi
    rw [hcall i (List.mem_range.mp hi)]
    rfl
  intro sched'
  have key := handleV2Translate_fanOut_reply config w v2Req authorization hN hne htl htok sched'
  simp only [hall, hexp, if_true] at key
  exact ⟨key.1 hcap, key.2⟩

/-- With a positive `MaxConcurrentRequests`: for a valid, authorized batch of `N` texts in
which the call for some index `k` fails with the error `errk`, there is one list of exactly
`N` translations such that: every index whose call fails with error `err` carries the text
`[TRANSLATION ERROR: err]` and, as detected language, the request's source language if that
is non-empty and the configured default otherwise; every index whose call is answered 200
with a parseable body carries the `source_lang` and `data` of its own reply; and under
every schedule the goroutines can run on until the handler replies, the reply is status
206 with that list, and no schedule leads to any other reply. -/
theorem handleV2Translate_some_call_fails_of_capacity_pos (config : Config) (w : World)
    (v2Req : V2TranslateRequest) (authorization : String) (k : Nat) (errk : String)
    (hK : 0 < config.maxConcurrentRequests)
    (hN : v2Req.text ≠ []) (hne : "" ∉ v2Req.text) (htl : v2Req.targetLang ≠ "")
    (htok : extractToken authorization ≠ "") (hk : k < v2Req.text.length)
    (hfail : (callOf w (handlerCtx config v2Req authorization) k).2 = .error errk) :
    ∃ translations : List Translation,
      translations.length = v2Req.text.length ∧
      (∀ (i : Nat) (err : String), i < v2Req.text.length →
        (callOf w (handlerCtx config v2Req authorization) i).2 = .error err →
        translations[i]? = some
          { detectedSourceLanguage :=
              if v2Req.sourceLang = "" then config.defaultSourceLang else v2Req.sourceLang,
            text := "[TRANSLATION ERROR: " ++ err ++ "]" }) ∧
      (∀ (i : Nat) (body : String) (v1Resp : V1TranslateResponse), i < v2Req.text.length →
        w.exchange i (requestOf (handlerCtx config v2Req authorization) i) = .reply 200 body →
        w.unmarshal body = .ok v1Resp →
        translations[i]? = some
          { detectedSourceLanguage := v1Resp.sourceLang, text := v1Resp.data }) ∧
      ∀ sched' : List Nat,
        (∃ more : List Nat,
          (handleV2Translate config w (sched' ++ more) (.ok v2Req) authorization).reply =
            .responded 206 (.translations translations)) ∧
        ∀ (status : Nat) (body' : Body),
          (handleV2Translate config w sched' (.ok v2Req) authorization).reply =
              .responded status body' →
            status = 206 ∧ body' = .translations translations := by
  have hcap : 0 < (handlerCtx config v2Req authorization).capacity := by
    show 0 < config.maxConcurrentRequests.toNat
    omega
  have hlen : (handlerCtx config v2Req authorization).texts.length = v2Req.text.length := rfl
  have hall : allSucceed w (handlerCtx config v2Req authorization) = false := by
    rw [Bool.eq_false_iff]
    intro h
    simp only [allSucceed, List.all_eq_true, List.mem_range, hlen] at h
    have := h k hk
    rw [hfail] at this
    simp [Except.toBool] at this
  have hget : ∀ i : Nat, i < v2Req.text.length →
      (expectedTranslations w (handlerCtx config v2Req authorization))[i]? =
        some (entryOf (effectiveSourceLang config v2Req)
          (callOf w (handlerCtx config v2Req authorization) i).2) := by
    intro i hi
    simp [expectedTranslations, hlen, List.getElem?_range hi, handlerCtx, fanOutCtx]
  refine ⟨expectedTranslations w (handlerCtx config v2Req authorization), ?_, ?_, ?_, ?_⟩
  · simp [expectedTranslations, hlen]
  · intro i err hi herr
    rw [hget i hi, herr]
    rfl
  · intro i body v1Resp hi hx hu
    rw [hget i hi, callOf_of_reply_ok w _ i body v1Resp hx hu]
    rfl
  · intro sched'
    have key :=
      handleV2Translate_fanOut_reply config w v2Req authorization hN hne htl htok sched'
    simp only [hall] at key
    exact ⟨key.1 hcap, key.2⟩

/-- Claim C5. For a request that passes field validation the handler answers 401 without
any upstream request exactly when `extractToken` of the `Authorization` value is empty;
with a non-empty token no reply is a 401 and the handler is the fan-out stage run with the
effective source language and the URL `<base URL>/<token>/translate`. A missing header
(`""`), `"Bearer "` and `"DeepL-Auth-Key "` all extract to the empty token. -/
theorem handleV2Translate_unauthorized_iff (config : Config) (w : World) (sched : List Nat)
    (v2Req : V2TranslateRequest) (authorization : String) (hN : v2Req.text ≠ [])
    (hne : "" ∉ v2Req.text) (htl : v2Req.targetLang ≠ "") :
    ((∃ body : Body, handleV2Translate config w sched (.ok v2Req) authorization =
        { reply := .responded 401 body, sent := [] }) ↔ extractToken authorization = "") ∧
    (∀ body : Body, extractToken authorization ≠ "" →
      (handleV2Translate config w sched (.ok v2Req) authorization).reply ≠
        .responded 401 body) ∧
    (extractToken authorization ≠ "" →
      handleV2Translate config w sched (.ok v2Req) authorization =
        fanOut config w sched v2Req
          (if v2Req.sourceLang = "" then config.defaultSourceLang else v2Req.sourceLang)
          (config.baseURL ++ "/" ++ extractToken authorization ++ "/translate")) ∧
    extractToken "" = "" ∧ extractToken "Bearer " = "" ∧
    extractToken "DeepL-Auth-Key " = "" := by
  have hlen : v2Req.text.length ≠ 0 := by
    simpa [List.length_eq_zero] using hN
  have hfan : extractToken authorization ≠ "" →
      handleV2Translate config w sched (.ok v2Req) authorization =
        fanOut config w sched v2Req (effectiveSourceLang config v2Req)
          (targetURL config (extractToken authorization)) :=
    handleV2Translate_eq_fanOut config w sched v2Req authorization hN hne htl
  refine ⟨⟨?_, ?_⟩, ?_, hfan, by decide, by decide, by decide⟩
  · rintro ⟨body, h⟩
    by_contra htok
    rw [hfan htok] at h
    exact fanOut_reply_ne_401 config w sched v2Req _ _ body (by rw [h])
  · intro htok
    exact ⟨.error "缺少授权信息"
        (some "请在 Authorization 头中提供 'DeepL-Auth-Key [token]' 格式的授权信息"),
      by simp [handleV2Translate, hlen, firstEmpty_eq_none.mpr hne, htl, htok]⟩
  · intro body htok
    rw [hfan htok]
    exact fanOut_reply_ne_401 config w sched v2Req _ _ body

/-- Claim C7, at the input on which the code departs from it: with `TARGET_BASE_URL` unset
and `config.yaml` absent, `loadConfig` started on the zero configuration returns without
error after line 123, and the loaded configuration has `MaxConcurrentRequests = 0` and
`RequestTimeout = 0`: the defaults of lines 140-145 (10 and 30) are not applied. -/
theorem loadConfig_without_env_and_file (decode : String → Config → Except String Config) :
    loadConfig { targetBaseURL := "", configFile := none, decode := decode } Config.zero =
      .ok { port := "8080", baseURL := "http://localhost:3000", defaultSourceLang := "auto",
            maxConcurrentRequests := 0, requestTimeout := 0, debugEnabled := false,
            logRequestBody := false, logResponseBody := false, logHeaders := false } := by
  rfl

theorem setDefaults_spec (config : Config) :
    (setDefaults config).port = (if config.port = "" then "8080" else config.port) ∧
    (setDefaults config).defaultSourceLang =
      (if config.defaultSourceLang = "" then "auto" else config.defaultSourceLang) ∧
    (setDefaults config).maxConcurrentRequests =
      (if config.maxConcurrentRequests ≤ 0 then 10 else config.maxConcurrentRequests) ∧
    (setDefaults config).requestTimeout =
      (if config.requestTimeout ≤ 0 then 30 else config.requestTimeout) ∧
    (setDefaults config).baseURL = config.baseURL := by
  by_cases h1 : config.port = "" <;> by_cases h2 : config.defaultSourceLang = "" <;>
    by_cases h3 : config.maxConcurrentRequests ≤ 0 <;>
    by_cases h4 : config.requestTimeout ≤ 0 <;>
    simp [setDefaults, h1, h2, h3, h4]

/-- On every path of `loadConfig` but the one without `TARGET_BASE_URL` and without
`config.yaml`, a successful load leaves both performance settings positive. -/
theorem loadConfig_positive_of_env_or_file (env : Env) (config loaded : Config)
    (hsrc : env.targetBaseURL ≠ "" ∨ env.configFile ≠ none)
    (hload : loadConfig env config = .ok loaded) :
    0 < loaded.maxConcurrentRequests ∧ 0 < loaded.requestTimeout ∧ loaded.port ≠ "" ∧
      loaded.defaultSourceLang ≠ "" := by
  have hpos : ∀ c : Config, 0 < (setDefaults c).maxConcurrentRequests ∧
      0 < (setDefaults c).requestTimeout ∧ (setDefaults c).port ≠ "" ∧
      (setDefaults c).defaultSourceLang ≠ "" := by
    intro c
    obtain ⟨h1, h2, h3, h4, _⟩ := setDefaults_spec c
    rw [h1, h2, h3, h4]
    refine ⟨?_, ?_, ?_, ?_⟩ <;> split <;> first | omega | simp_all
  unfold loadConfig at hload
  split at hload
  · cases hload
    exact hpos _
  · rename_i henv
    cases hfile : env.configFile with
    | none => simp [hfile, henv] at hsrc
    | some contents =>
      rw [hfile] at hload
      dsimp only at hload
      split at hload
      · cases hload
      · cases hload
        exact hpos _

/-- With `MaxConcurrentRequests = 0` the handler never answers a request that passes
validation and authorization, and no upstream request is made. -/
theorem handleV2Translate_blocked_of_capacity_zero (config : Config) (w : World)
    (sched : List Nat) (v2Req : V2TranslateRequest) (authorization : String)
    (hcap : config.maxConcurrentRequests = 0) (hN : v2Req.text ≠ []) (hne : "" ∉ v2Req.text)
    (htl : v2Req.targetLang ≠ "") (htok : extractToken authorization ≠ "") :
    handleV2Translate config w sched (.ok v2Req) authorization =
      { reply := .blocked, sent := [] } := by
  rw [handleV2Translate_eq_fanOut config w sched v2Req authorization hN hne htl htok, fanOut_eq,
    runFanOut_capacity_zero w _ (by simp [fanOutCtx, hcap])]
  have hlen : v2Req.text.length ≠ 0 := by
    simpa [List.length_eq_zero] using hN
  have hnd : (FanOut.init v2Req.text.length).allDone = false := by
    cases hn : v2Req.text.length with
    | zero => exact absurd hn hlen
    | succ n => simp [FanOut.allDone, FanOut.init, List.replicate_succ]
  have hK : ¬ config.maxConcurrentRequests < 0 := by omega
  rw [if_neg hK]
  show (if (FanOut.init v2Req.text.length).allDone = true then _ else _) = _
  rw [hnd]
  rfl

/-- The handler under the configuration that `loadConfig` produces without
`TARGET_BASE_URL` and without `config.yaml`: a valid, authorized request is never answered
and no request reaches the upstream, under any schedule. -/
theorem handleV2Translate_blocked_after_default_load
    (decode : String → Config → Except String Config) (sched : List Nat) :
    ∃ config : Config,
      loadConfig { targetBaseURL := "", configFile := none, decode := decode } Config.zero =
        .ok config ∧
      handleV2Translate config healthyWorld sched (.ok sampleRequest) "Bearer abc" =
        { reply := .blocked, sent := [] } :=
  ⟨_, rfl, handleV2Translate_blocked_of_capacity_zero _ healthyWorld sched sampleRequest
    "Bearer abc" rfl (by decide) (by decide) (by decide) (by decide)⟩

/-- Claim C1, at the input on which the code departs from it. `loadConfig`, run without
`TARGET_BASE_URL` and without `config.yaml`, returns a configuration without error; the
batch `["hello", "world"]` with target language `DE` and header `Bearer abc` passes
validation and authorization; the upstream answers the call for each of the two texts with
status 200 and a body that parses. Yet under every schedule the handler has not replied
(`wg.Wait()` never returns) and no request has reached the upstream: the channel of line
261 has capacity 0, so no goroutine gets past its send. The claim promises status 200 with
two translations. -/
theorem handleV2Translate_all_succeed_never_replies
    (decode : String → Config → Except String Config) (sched : List Nat) :
    ∃ config : Config,
      loadConfig { targetBaseURL := "", configFile := none, decode := decode } Config.zero =
        .ok config ∧
      sampleRequest.text ≠ [] ∧ "" ∉ sampleRequest.text ∧ sampleRequest.targetLang ≠ "" ∧
      extractToken "Bearer abc" ≠ "" ∧
      (∀ i : Nat, i < sampleRequest.text.length →
        ∃ (body : String) (v1Resp : V1TranslateResponse),
          healthyWorld.exchange i
              (requestOf (handlerCtx config sampleRequest "Bearer abc") i) =
            .reply 200 body ∧
          healthyWorld.unmarshal body = .ok v1Resp) ∧
      handleV2Translate config healthyWorld sched (.ok sampleRequest) "Bearer abc" =
        { reply := .blocked, sent := [] } := by
  refine ⟨_, rfl, by decide, by decide, by decide, by decide, ?_,
    handleV2Translate_blocked_of_capacity_zero _ healthyWorld sched sampleRequest
      "Bearer abc" rfl (by decide) (by decide) (by decide) (by decide)⟩
  intro i hi
  have hi' : i < 2 := hi
  interval_cases i
  · exact ⟨"<hello>", _, rfl, rfl⟩
  · exact ⟨"<world>", _, rfl, rfl⟩

/-- Claim C2, at the input on which the code departs from it. `loadConfig`, run without
`TARGET_BASE_URL` and without `config.yaml`, returns a configuration without error; the
batch `["hello", "world"]` passes validation and authorization; the upstream call for the
text at index 1 fails in transport, so that `translateSingleText` returns an error for it.
Yet under every schedule the handler has not replied and no request has reached the
upstream, for the same reason as for claim C1. The claim promises status 206 with two
entries, the second one the error marker. -/
theorem handleV2Translate_failing_call_never_replies
    (decode : String → Config → Except String Config) (sched : List Nat) :
    ∃ config : Config,
      loadConfig { targetBaseURL := "", configFile := none, decode := decode } Config.zero =
        .ok config ∧
      sampleRequest.text ≠ [] ∧ "" ∉ sampleRequest.text ∧ sampleRequest.targetLang ≠ "" ∧
      extractToken "Bearer abc" ≠ "" ∧
      (flakyWorld 1000000).exchange 1
          (requestOf (handlerCtx config sampleRequest "Bearer abc") 1) =
        .doFailed "connection refused" ∧
      (translateSingleText (flakyWorld 1000000) 1 "world" "auto" "DE"
          "http://localhost:3000/abc/translate").2 =
        .error "请求失败 (耗时: 1ms): connection refused" ∧
      handleV2Translate config (flakyWorld 1000000) sched (.ok sampleRequest) "Bearer abc" =
        { reply := .blocked, sent := [] } :=
  ⟨_, rfl, by decide, by decide, by decide, by decide, rfl, rfl,
    handleV2Translate_blocked_of_capacity_zero _ (flakyWorld 1000000) sched sampleRequest
      "Bearer abc" rfl (by decide) (by decide) (by decide) (by decide)⟩

/-- Claim C8. At every state the fan-out of the handler reaches, under any schedule, the
number of goroutines whose call to `translateSingleText` is in flight is at most
`MaxConcurrentRequests`: the slots taken in the channel are exactly those of the
goroutines between their send and their deferred receive, they never exceed the capacity,
a goroutine still waiting for its slot has handed no request to the upstream, and once
every goroutine has returned, with or without an error, every slot has been released. -/
theorem runFanOut_in_flight_le_capacity (config : Config) (w : World)
    (v2Req : V2TranslateRequest) (sourceLang url : String) (sched : List Nat) :
    (runFanOut w (fanOutCtx config v2Req sourceLang url) sched).inFlight ≤
      config.maxConcurrentRequests.toNat ∧
    (runFanOut w (fanOutCtx config v2Req sourceLang url) sched).semaphore ≤
      config.maxConcurrentRequests.toNat ∧
    (runFanOut w (fanOutCtx config v2Req sourceLang url) sched).semaphore =
      (runFanOut w (fanOutCtx config v2Req sourceLang url) sched).phases.count Phase.holding +
        (runFanOut w (fanOutCtx config v2Req sourceLang url) sched).phases.count
          Phase.written ∧
    (∀ i : Nat,
      (runFanOut w (fanOutCtx config v2Req sourceLang url) sched).phases[i]? =
          some Phase.waiting →
        ∀ e ∈ (runFanOut w (fanOutCtx config v2Req sourceLang url) sched).sent, e.1 ≠ i) ∧
    ((runFanOut w (fanOutCtx config v2Req sourceLang url) sched).allDone = true →
      (runFanOut w (fanOutCtx config v2Req sourceLang url) sched).semaphore = 0) := by
  have hs := inv_runFanOut w (fanOutCtx config v2Req sourceLang url) sched
  have hroom : (runFanOut w (fanOutCtx config v2Req sourceLang url) sched).semaphore ≤
      config.maxConcurrentRequests.toNat := hs.room
  refine ⟨?_, hroom, hs.slots, ?_, ?_⟩
  · have h2 := hs.slots
    unfold FanOut.inFlight
    omega
  · intro i hi e he hei
    have hmem : e ∈ (runFanOut w (fanOutCtx config v2Req sourceLang url) sched).sent.filter
        (fun e => e.1 = i) := by
      simp [List.mem_filter, he, hei]
    rw [hs.sent i, hi] at hmem
    simp [sentAt] at hmem
  · intro hd
    have hr := (allDone_iff_remaining _).mp hd
    have h2 := hs.slots
    unfold FanOut.remaining at hr
    omega

theorem handleV2Translate_responded (config : Config) (w : World) (sched : List Nat)
    (v2Req : V2TranslateRequest) (authorization : String) (hN : v2Req.text ≠ [])
    (hne : "" ∉ v2Req.text) (htl : v2Req.targetLang ≠ "")
    (htok : extractToken authorization ≠ "") (status : Nat) (body : Body)
    (h : (handleV2Translate config w sched (.ok v2Req) authorization).reply =
      .responded status body) :
    (runFanOut w (handlerCtx config v2Req authorization) sched).allDone = true ∧
    (handleV2Translate config w sched (.ok v2Req) authorization).sent =
      (runFanOut w (handlerCtx config v2Req authorization) sched).sent := by
  rw [handleV2Translate_eq_fanOut config w sched v2Req authorization hN hne htl htok, fanOut_eq]
    at h ⊢
  split at h
  · simp at h
  · rename_i hK
    rw [if_neg hK]
    split at h
    · rename_i hd
      exact ⟨hd, by rw [if_pos hd]; rfl⟩
    · simp at h

theorem translateSingleText_congr (w₁ w₂ : World)
    (hx : ∀ (i : Nat) (req : UpstreamRequest), w₁.exchange i req = w₂.exchange i req)
    (hu : ∀ body : String, w₁.unmarshal body = w₂.unmarshal body)
    (he : ∀ (i : Nat) (req : UpstreamRequest) (err : String),
      w₁.exchange i req = .doFailed err → w₁.elapsed i = w₂.elapsed i)
    (call : Nat) (text sourceLang targetLang url : String) :
    translateSingleText w₁ call text sourceLang targetLang url =
      translateSingleText w₂ call text sourceLang targetLang url := by
  simp only [translateSingleText, ← hx, ← hu]
  cases h : w₁.exchange call (buildRequest text sourceLang targetLang url) with
  | doFailed err => simp only [he call _ err h]
  | _ => rfl

theorem goroutineStep_congr (w₁ w₂ : World)
    (hx : ∀ (i : Nat) (req : UpstreamRequest), w₁.exchange i req = w₂.exchange i req)
    (hu : ∀ body : String, w₁.unmarshal body = w₂.unmarshal body)
    (he : ∀ (i : Nat) (req : UpstreamRequest) (err : String),
      w₁.exchange i req = .doFailed err → w₁.elapsed i = w₂.elapsed i)
    (ctx : FanOutCtx) (s : FanOut) (i : Nat) :
    goroutineStep w₁ ctx s i = goroutineStep w₂ ctx s i := by
  simp only [goroutineStep, translateSingleText_congr w₁ w₂ hx hu he]

theorem runFanOut_congr (w₁ w₂ : World)
    (hx : ∀ (i : Nat) (req : UpstreamRequest), w₁.exchange i req = w₂.exchange i req)
    (hu : ∀ body : String, w₁.unmarshal body = w₂.unmarshal body)
    (he : ∀ (i : Nat) (req : UpstreamRequest) (err : String),
      w₁.exchange i req = .doFailed err → w₁.elapsed i = w₂.elapsed i)
    (ctx : FanOutCtx) (sched : List Nat) : runFanOut w₁ ctx sched = runFanOut w₂ ctx sched := by
  have hstep : goroutineStep w₁ ctx = goroutineStep w₂ ctx := by
    funext s i
    exact goroutineStep_congr w₁ w₂ hx hu he ctx s i
  simp only [runFanOut, hstep]

theorem handleV2Translate_congr (config : Config) (w₁ w₂ : World)
    (hx : ∀ (i : Nat) (req : UpstreamRequest), w₁.exchange i req = w₂.exchange i req)
    (hu : ∀ body : String, w₁.unmarshal body = w₂.unmarshal body)
    (he : ∀ (i : Nat) (req : UpstreamRequest) (err : String),
      w₁.exchange i req = .doFailed err → w₁.elapsed i = w₂.elapsed i)
    (sched : List Nat) (bound : Except String V2TranslateRequest) (authorization : String) :
    handleV2Translate config w₁ sched bound authorization =
      handleV2Translate config w₂ sched bound authorization := by
  simp only [handleV2Translate, fanOut, runFanOut_congr w₁ w₂ hx hu he]

/-- A request that fails validation or authorization is answered before the fan-out, so
the schedule plays no part. -/
theorem handleV2Translate_early (config : Config) (w : World) (s₁ s₂ : List Nat)
    (v2Req : V2TranslateRequest) (authorization : String)
    (hinvalid : ¬ (v2Req.text ≠ [] ∧ "" ∉ v2Req.text ∧ v2Req.targetLang ≠ "" ∧
      extractToken authorization ≠ "")) :
    handleV2Translate config w s₁ (.ok v2Req) authorization =
      handleV2Translate config w s₂ (.ok v2Req) authorization := by
  simp only [handleV2Translate]
  split
  · rfl
  · rename_i hlen
    split
    · rfl
    · rename_i hf
      split
      · rfl
      · rename_i htl
        split
        · rfl
        · rename_i htok
          exfalso
          apply hinvalid
          refine ⟨?_, firstEmpty_eq_none.mp hf, htl, htok⟩
          intro h
          simp [h] at hlen

/-- The reply of the handler does not depend on the schedule, once there is one. -/
theorem handleV2Translate_reply_unique (config : Config) (w : World) (s₁ s₂ : List Nat)
    (bound : Except String V2TranslateRequest) (authorization : String)
    (status₁ status₂ : Nat) (body₁ body₂ : Body)
    (h₁ : (handleV2Translate config w s₁ bound authorization).reply =
      .responded status₁ body₁)
    (h₂ : (handleV2Translate config w s₂ bound authorization).reply =
      .responded status₂ body₂) :
    status₁ = status₂ ∧ body₁ = body₂ := by
  cases bound with
  | error err =>
    simp only [handleV2Translate, Reply.responded.injEq] at h₁ h₂
    exact ⟨h₁.1.symm.trans h₂.1, h₁.2.symm.trans h₂.2⟩
  | ok v2Req =>
    by_cases hvalid : v2Req.text ≠ [] ∧ "" ∉ v2Req.text ∧ v2Req.targetLang ≠ "" ∧
        extractToken authorization ≠ ""
    · obtain ⟨hN, hne, htl, htok⟩ := hvalid
      have k₁ := (handleV2Translate_fanOut_reply config w v2Req authorization hN hne htl htok
        s₁).2 _ _ h₁
      have k₂ := (handleV2Translate_fanOut_reply config w v2Req authorization hN hne htl htok
        s₂).2 _ _ h₂
      exact ⟨k₁.1.trans k₂.1.symm, k₁.2.trans k₂.2.symm⟩
    · rw [handleV2Translate_early config w s₁ s₂ v2Req authorization hvalid, h₂] at h₁
      simp only [Reply.responded.injEq] at h₁
      exact ⟨h₁.1.symm, h₁.2.symm⟩

/-- A reply that one schedule leads to can be reached from every state of every run. -/
theorem handleV2Translate_reply_reachable (config : Config) (w : World) (s₁ s₂ : List Nat)
    (bound : Except String V2TranslateRequest) (authorization : String)
    (status : Nat) (body : Body)
    (h₁ : (handleV2Translate config w s₁ bound authorization).reply =
      .responded status body) :
    ∃ more : List Nat,
      (handleV2Translate config w (s₂ ++ more) bound authorization).reply =
        .responded status body := by
  cases bound with
  | error err => exact ⟨[], h₁⟩
  | ok v2Req =>
    by_cases hvalid : v2Req.text ≠ [] ∧ "" ∉ v2Req.text ∧ v2Req.targetLang ≠ "" ∧
        extractToken authorization ≠ ""
    · obtain ⟨hN, hne, htl, htok⟩ := hvalid
      have hd := (handleV2Translate_responded config w s₁ v2Req authorization hN hne htl htok
        status body h₁).1
      have hcap : 0 < (handlerCtx config v2Req authorization).capacity := by
        by_contra hc
        rw [runFanOut_capacity_zero w _ (by omega)] at hd
        have hlen : (handlerCtx config v2Req authorization).texts.length ≠ 0 := by
          show v2Req.text.length ≠ 0
          simpa [List.length_eq_zero] using hN
        cases hn : (handlerCtx config v2Req authorization).texts.length with
        | zero => exact hlen hn
        | succ n => simp [hn, FanOut.allDone, FanOut.init, List.replicate_succ] at hd
      have k := (handleV2Translate_fanOut_reply config w v2Req authorization hN hne htl htok
        s₁).2 _ _ h₁
      obtain ⟨more, hmore⟩ := (handleV2Translate_fanOut_reply config w v2Req authorization hN
        hne htl htok s₂).1 hcap
      exact ⟨more, by rw [hmore, k.1, k.2]⟩
    · exact ⟨[], by
        rw [handleV2Translate_early config w (s₂ ++ []) s₁ v2Req authorization hvalid]
        exact h₁⟩

/-- Claim C10, amended. The output of the handler is determined by the request, the
`Authorization` header, the configuration, the outcomes of the upstream calls and, for the
calls that fail in transport, the elapsed time printed into their error description
(line 385). If two surroundings agree on how every exchange ends and on how bodies parse,
and measure the same elapsed time for every call that fails in transport, then: under
every schedule the two runs produce the same output; whenever both runs reply, under
whatever two schedules, the statuses and payloads are equal; and a reply of one run can be
reached from every state of the other. -/
theorem handleV2Translate_determined (config : Config) (w₁ w₂ : World)
    (bound : Except String V2TranslateRequest) (authorization : String)
    (hx : ∀ (i : Nat) (req : UpstreamRequest), w₁.exchange i req = w₂.exchange i req)
    (hu : ∀ body : String, w₁.unmarshal body = w₂.unmarshal body)
    (he : ∀ (i : Nat) (req : UpstreamRequest) (err : String),
      w₁.exchange i req = .doFailed err → w₁.elapsed i = w₂.elapsed i) :
    (∀ sched : List Nat,
      handleV2Translate config w₁ sched bound authorization =
        handleV2Translate config w₂ sched bound authorization) ∧
    (∀ (s₁ s₂ : List Nat) (status₁ status₂ : Nat) (body₁ body₂ : Body),
      (handleV2Translate config w₁ s₁ bound authorization).reply =
          .responded status₁ body₁ →
      (handleV2Translate config w₂ s₂ bound authorization).reply =
          .responded status₂ body₂ →
      status₁ = status₂ ∧ body₁ = body₂) ∧
    ∀ (s₁ s₂ : List Nat) (status : Nat) (body : Body),
      (handleV2Translate config w₁ s₁ bound authorization).reply = .responded status body →
      ∃ more : List Nat,
        (handleV2Translate config w₂ (s₂ ++ more) bound authorization).reply =
          .responded status body := by
  refine ⟨fun sched => handleV2Translate_congr config w₁ w₂ hx hu he sched bound authorization,
    ?_, ?_⟩
  · intro s₁ s₂ status₁ status₂ body₁ body₂ h₁ h₂
    rw [handleV2Translate_congr config w₁ w₂ hx hu he s₁ bound authorization] at h₁
    exact handleV2Translate_reply_unique config w₂ s₁ s₂ bound authorization _ _ _ _ h₁ h₂
  · intro s₁ s₂ status body h₁
    rw [handleV2Translate_congr config w₁ w₂ hx hu he s₁ bound authorization] at h₁
    exact handleV2Translate_reply_reachable config w₂ s₁ s₂ bound authorization status body h₁

/-- The batch `["hello", "world"]` against an upstream that answers every call, with
capacity two: from the state after `[0, 0, 0]` the handler can be run to the reply 200
with both translations. -/
theorem handleV2Translate_all_calls_succeed_example :
    ∃ more : List Nat,
      (handleV2Translate sampleConfig healthyWorld ([0, 0, 0] ++ more) (.ok sampleRequest)
          "Bearer abc").reply =
        .responded 200 (.translations
          [{ detectedSourceLanguage := "EN", text := "<hello>" },
           { detectedSourceLanguage := "EN", text := "<world>" }]) :=
  (handleV2Translate_all_calls_succeed_of_capacity_pos sampleConfig healthyWorld
    sampleRequest "Bearer abc" (fun i => "<" ++ sampleRequest.text.getD i "" ++ ">")
    (fun i =>
      { alternatives := [], code := 200, data := "<" ++ sampleRequest.text.getD i "" ++ ">",
        id := 0, method := "Free", sourceLang := "EN", targetLang := "DE" })
    (by decide) (by decide) (by decide) (by decide) (by decide)
    (by
      intro i hi
      have hi' : i < 2 := hi
      interval_cases i <;> exact ⟨by decide, by rfl⟩)
    [0, 0, 0]).1

/-- The same batch against an upstream whose second call fails in transport: the handler
can be run to the reply 206, whose second entry is the error marker. -/
theorem handleV2Translate_some_call_fails_example :
    ∃ translations : List Translation,
      translations.length = 2 ∧
      translations[1]? = some
        { detectedSourceLanguage := "auto",
          text := "[TRANSLATION ERROR: 请求失败 (耗时: 1ms): connection refused]" } ∧
      ∃ more : List Nat,
        (handleV2Translate sampleConfig (flakyWorld 1000000) ([0, 1] ++ more)
            (.ok sampleRequest) "Bearer abc").reply =
          .responded 206 (.translations translations) := by
  obtain ⟨translations, hlen, herr, _, hsched⟩ :=
    handleV2Translate_some_call_fails_of_capacity_pos sampleConfig (flakyWorld 1000000)
      sampleRequest "Bearer abc" 1 "请求失败 (耗时: 1ms): connection refused"
      (by decide) (by decide) (by decide) (by decide) (by decide) (by decide) (by rfl)
  have h1 := herr 1 "请求失败 (耗时: 1ms): connection refused" (by decide) (by rfl)
  exact ⟨translations, hlen, h1.trans (by decide), (hsched [0, 1]).1⟩

theorem handleV2Translate_rejects_missing_fields_witness :
    ∃ msg : String,
      handleV2Translate sampleConfig healthyWorld []
          (.ok { text := ["hello"], sourceLang := "EN", targetLang := "" }) "Bearer abc" =
        { reply := .responded 400 (.error msg none), sent := [] } :=
  handleV2Translate_rejects_missing_fields sampleConfig healthyWorld []
    { text := ["hello"], sourceLang := "EN", targetLang := "" } "Bearer abc" (Or.inr rfl)

theorem handleV2Translate_unauthorized_iff_witness :
    (∃ body : Body,
      handleV2Translate sampleConfig healthyWorld [] (.ok sampleRequest) "Bearer " =
        { reply := .responded 401 body, sent := [] }) ↔ extractToken "Bearer " = "" :=
  (handleV2Translate_unauthorized_iff sampleConfig healthyWorld [] sampleRequest "Bearer "
    (by decide) (by decide) (by decide)).1

theorem extractToken_characterisation_witness :
    extractToken "plainvalue" = "plainvalue" :=
  (extractToken_characterisation "plainvalue").2.2.1
    (fun t h => by
      have := congrArg (fun s => hasPrefix s "DeepL-Auth-Key ") h
      simp only [hasPrefix_append] at this
      exact absurd this (by decide))
    (fun t h => by
      have := congrArg (fun s => hasPrefix s "Bearer ") h
      simp only [hasPrefix_append] at this
      exact absurd this (by decide))

/-- Claim C10 as stated fails: the same request against the same upstream, whose second
call fails in transport both times, is answered with two different payloads when
`client.Do` takes 1ms in one run and 2ms in the other. -/
theorem handleV2Translate_reply_depends_on_elapsed :
    (handleV2Translate sampleConfig (flakyWorld 1000000) [1, 0, 1, 0, 0, 1] (.ok sampleRequest)
        "Bearer abc").reply =
      .responded 206 (.translations
        [{ detectedSourceLanguage := "EN", text := "<hello>" },
         { detectedSourceLanguage := "auto",
           text := "[TRANSLATION ERROR: 请求失败 (耗时: 1ms): connection refused]" }]) ∧
    (handleV2Translate sampleConfig (flakyWorld 2000000) [1, 0, 1, 0, 0, 1] (.ok sampleRequest)
        "Bearer abc").reply =
      .responded 206 (.translations
        [{ detectedSourceLanguage := "EN", text := "<hello>" },
         { detectedSourceLanguage := "auto",
           text := "[TRANSLATION ERROR: 请求失败 (耗时: 2ms): connection refused]" }]) ∧
    (handleV2Translate sampleConfig (flakyWorld 1000000) [1, 0, 1, 0, 0, 1] (.ok sampleRequest)
        "Bearer abc").reply ≠
      (handleV2Translate sampleConfig (flakyWorld 2000000) [1, 0, 1, 0, 0, 1] (.ok sampleRequest)
        "Bearer abc").reply := by
  decide

theorem handleV2Translate_determined_witness :
    handleV2Translate sampleConfig (flakyWorld 1500) [1, 0, 1, 0, 0, 1] (.ok sampleRequest)
        "Bearer abc" =
      handleV2Translate sampleConfig
        { exchange := (flakyWorld 1500).exchange,
          elapsed := fun i => if i = 1 then 1500 else 7,
          unmarshal := sampleUnmarshal } [1, 0, 1, 0, 0, 1] (.ok sampleRequest) "Bearer abc" :=
  (handleV2Translate_determined sampleConfig (flakyWorld 1500)
    { exchange := (flakyWorld 1500).exchange,
      elapsed := fun i => if i = 1 then 1500 else 7,
      unmarshal := sampleUnmarshal } (.ok sampleRequest) "Bearer abc"
    (fun _ _ => rfl) (fun _ => rfl)
    (by
      intro i req err h
      by_cases hi : i = 1
      · simp [flakyWorld, hi]
      · simp [flakyWorld, hi] at h)).1 [1, 0, 1, 0, 0, 1]

end DeeplxTransform
